import Mathlib

/-
  Verification of the work-order lifecycle and allocation engine of
  src/app_v6_deploy.py (a Streamlit dispatch tool backed by a Google Sheet).

  Tickets ("quests") live in a worksheet with columns
  id, title, quote_no, description, rank, points, status, hunter_id,
  created_at, partner_id (QUEST_COLS, lines 320-331).  All cell values are
  read back as strings except points, which get_data coerces to int
  (lines 501-502).  Python str operations (split, strip, replace,
  startswith) are embedded as structural functions over List Char so that
  every definition evaluates inside the kernel.
-/

/-! ### Character-list utilities embedding Python str primitives -/

/-- Is the first list a prefix of the second (Python str.startswith on the
underlying characters)? -/
def isPref : List Char → List Char → Bool
  | [], _ => true
  | _ :: _, [] => false
  | a :: as, b :: bs => a == b && isPref as bs

/-- Does `pat` occur as a contiguous substring of `l` (Python `in`)? -/
def containsSub (pat : List Char) : List Char → Bool
  | [] => isPref pat []
  | c :: rest => isPref pat (c :: rest) || containsSub pat rest

/-- Python s.split(sep) for a single-character separator: `[]` input gives
`[[]]`, matching `"".split(sep) == [""]`. -/
def charsSplitOn (sep : Char) : List Char → List (List Char)
  | [] => [[]]
  | c :: rest =>
    if c == sep then [] :: charsSplitOn sep rest
    else
      match charsSplitOn sep rest with
      | [] => [[c]]
      | p :: ps => (c :: p) :: ps

/-- Python sep.join(parts) for a single-character separator. -/
def charsJoin (sep : Char) : List (List Char) → List Char
  | [] => []
  | [p] => p
  | p :: ps => p ++ sep :: charsJoin sep ps

/-- Python's str whitespace class (the characters relevant to `strip()` and
`\s` here): space, tab, newline, carriage return, vertical tab, form feed. -/
def pyIsSpace (c : Char) : Bool :=
  c == ' ' || c == '\t' || c == '\n' || c == '\r'
    || c == Char.ofNat 11 || c == Char.ofNat 12

/-- Python s.strip(chars-class): drop characters satisfying `p` from both
ends. -/
def stripEndsWhile (p : Char → Bool) (l : List Char) : List Char :=
  ((l.dropWhile p).reverse.dropWhile p).reverse

/-- String wrapper: Python s.split(sep) on a one-character separator. -/
def strSplitChar (sep : Char) (s : String) : List String :=
  (charsSplitOn sep s.data).map (fun l => ⟨l⟩)

/-- String wrapper: Python s.startswith(pre). -/
def strStartsWith (s pre : String) : Bool :=
  isPref pre.data s.data

/-- String wrapper: Python s.strip() (whitespace only). -/
def stripSpaces (s : String) : String :=
  ⟨stripEndsWhile pyIsSpace s.data⟩

/-! ### The ticket record -/

/-- A ticket record, one row of the quests worksheet after get_data's
string/int coercions (src/app_v6_deploy.py lines 320-331, 476-506). -/
structure Quest where
  id : String
  title : String
  quote_no : String
  description : String
  rank : String
  points : Int
  status : String
  hunter_id : String
  created_at : String
  partner_id : String

/-- `[p for p in str(r.get("partner_id","")).split(",") if p]`
(src/app_v6_deploy.py lines 973, 994): split the stored teammate cell on
commas and drop empty entries. -/
def parsePartners (s : String) : List String :=
  (strSplitChar ',' s).filter (fun p => p != "")

/-! ### Revenue allocation (claim C1) -/

/-- The payout one Done ticket contributes to worker `me`
(src/app_v6_deploy.py lines 972-982): team = [hunter_id] + partners,
share = points // len(team), rem = points % len(team); the hunter gets
share + rem, any other team member gets share, a non-member gets nothing.
Python's `//` and `%` on ints are floor division and floor modulus, which
are Int.fdiv and Int.fmod. -/
def questPayout (q : Quest) (me : String) : Int :=
  let partners := parsePartners q.partner_id
  let team := q.hunter_id :: partners
  if me ∈ team then
    let n : Int := (team.length : Int)
    if me = q.hunter_id then q.points.fdiv n + q.points.fmod n
    else q.points.fdiv n
  else 0

/-- calc_my_total_month (src/app_v6_deploy.py lines 961-984): total payout
of worker `me` over all Done tickets whose created_at starts with the
month string. -/
def calc_my_total_month (quests : List Quest) (me : String) (month : String) : Int :=
  ((quests.filter
      (fun q => q.status == "Done" && strStartsWith q.created_at month)).map
    (fun q => questPayout q me)).sum

/-- C1: for a Done ticket of the queried month whose team
[hunter_id] ++ partners has distinct members and size 1-4, with
non-negative value, calc_my_total_month pays the hunter
floor(value/n) + (value mod n), pays each partner floor(value/n), and the
payouts over the whole team sum to exactly the ticket value. -/
theorem C1_done_ticket_payout (q : Quest) (m : String)
    (hst : q.status = "Done") (hcr : strStartsWith q.created_at m = true)
    (hv : 0 ≤ q.points)
    (hnp : q.hunter_id ∉ parsePartners q.partner_id)
    (hlen : (parsePartners q.partner_id).length ≤ 3)
    (hnd : (parsePartners q.partner_id).Nodup) :
    calc_my_total_month [q] q.hunter_id m
        = q.points.fdiv ((parsePartners q.partner_id).length + 1)
          + q.points.fmod ((parsePartners q.partner_id).length + 1)
    ∧ (∀ p ∈ parsePartners q.partner_id,
        calc_my_total_month [q] p m
          = q.points.fdiv ((parsePartners q.partner_id).length + 1))
    ∧ ((q.hunter_id :: parsePartners q.partner_id).map
        (fun w => calc_my_total_month [q] w m)).sum = q.points := by
  have hfq : (q.status == "Done" && strStartsWith q.created_at m) = true := by
    rw [hst, hcr]; rfl
  have hcalc : ∀ me : String, calc_my_total_month [q] me m = questPayout q me := by
    intro me
    simp [calc_my_total_month, List.filter, hfq]
  have hHunter : questPayout q q.hunter_id
      = q.points.fdiv ((parsePartners q.partner_id).length + 1)
        + q.points.fmod ((parsePartners q.partner_id).length + 1) := by
    unfold questPayout
    simp only [List.length_cons]
    rw [if_pos (List.mem_cons_self _ _)]
    simp only [eq_self_iff_true, if_true]
    push_cast
    ring_nf
  have hPartner : ∀ p ∈ parsePartners q.partner_id,
      questPayout q p = q.points.fdiv ((parsePartners q.partner_id).length + 1) := by
    intro p hp
    have hpne : p ≠ q.hunter_id := by
      intro h; exact hnp (h ▸ hp)
    unfold questPayout
    simp only [List.length_cons]
    rw [if_pos (List.mem_cons_of_mem _ hp), if_neg hpne]
    push_cast
    ring_nf
  refine ⟨by rw [hcalc]; exact hHunter, ?_, ?_⟩
  · intro p hp
    rw [hcalc]; exact hPartner p hp
  · have hmapeq : ((q.hunter_id :: parsePartners q.partner_id).map
        (fun w => calc_my_total_month [q] w m)).sum
        = (q.points.fdiv ((parsePartners q.partner_id).length + 1)
            + q.points.fmod ((parsePartners q.partner_id).length + 1))
          + ((parsePartners q.partner_id).map
              (fun _ => q.points.fdiv ((parsePartners q.partner_id).length + 1))).sum := by
      rw [List.map_cons, List.sum_cons, hcalc, hHunter]
      congr 1
      refine congrArg List.sum (List.map_congr_left ?_)
      intro p hp
      rw [hcalc]; exact hPartner p hp
    rw [hmapeq]
    have hconst : ((parsePartners q.partner_id).map
        (fun _ => q.points.fdiv ((parsePartners q.partner_id).length + 1))).sum
        = ((parsePartners q.partner_id).length : Int)
            * q.points.fdiv ((parsePartners q.partner_id).length + 1) := by
      rw [List.map_const', List.sum_replicate, nsmul_eq_mul]
    rw [hconst]
    have key := Int.fdiv_add_fmod q.points (((parsePartners q.partner_id).length : Int) + 1)
    ring_nf
    ring_nf at key
    linarith [key]

/-- A concrete Done ticket used to witness C1: value 100, hunter A,
partners B and C. -/
def questC1 : Quest :=
  { id := "q1", title := "t", quote_no := "", description := "",
    rank := "消防工程", points := 100, status := "Done", hunter_id := "A",
    created_at := "2025-01-02 03:04:05", partner_id := "B,C" }

/-- Witness for C1 at a concrete ticket: the 100/3 split pays the hunter
34 and each partner 33, summing to 100. -/
theorem C1_done_ticket_payout_witness :
    calc_my_total_month [questC1] "A" "2025-01" = 34
    ∧ calc_my_total_month [questC1] "B" "2025-01" = 33
    ∧ calc_my_total_month [questC1] "C" "2025-01" = 33 := by
  have h := C1_done_ticket_payout questC1 "2025-01" rfl (by decide) (by decide)
    (by decide) (by decide) (by decide)
  have hA : ("A" : String) = questC1.hunter_id := rfl
  refine ⟨?_, ?_, ?_⟩
  · rw [hA, h.1]; decide
  · rw [h.2.1 "B" (by decide)]; decide
  · rw [h.2.1 "C" (by decide)]; decide

/-! ### Busy lock and status transitions (claims C2, C3, C4) -/

/-- is_me_busy (src/app_v6_deploy.py lines 988-997): a worker is busy iff
some quest with status "Active" lists them as hunter_id or among the
comma-separated partner_id entries. -/
def is_me_busy (quests : List Quest) (me : String) : Bool :=
  (quests.filter (fun q => q.status == "Active")).any
    (fun q => me == q.hunter_id || (parsePartners q.partner_id).contains me)

/-- `",".join([p for p in partner_list if p])`
(src/app_v6_deploy.py line 728). -/
def joinPartners (ps : List String) : String :=
  ⟨charsJoin ',' ((ps.filter (fun p => p != "")).map (fun p => p.data))⟩

/-- Record-level effect of update_quest_status on the addressed row
(src/app_v6_deploy.py lines 712-741): the status cell is always written;
the hunter_id cell only when a hunter argument is passed; the partner_id
cell when a partner list is passed (joined by commas), or cleared when the
new status is "Open" and no partner list is passed. -/
def applyUpdate (q : Quest) (new_status : String) (hunter : Option String)
    (partner_list : Option (List String)) : Quest :=
  let q1 := { q with status := new_status }
  let q2 := match hunter with
    | some h => { q1 with hunter_id := h }
    | none => q1
  match partner_list with
  | some ps => { q2 with partner_id := joinPartners ps }
  | none => if new_status == "Open" then { q2 with partner_id := "" } else q2

/-- update_quest_status lifted to the quest collection: the row whose id
matches is rewritten by applyUpdate, all other rows are untouched
(src/app_v6_deploy.py lines 668-749; cell addressing is modelled
separately below for claim C5). -/
def update_quest_status_list (quests : List Quest) (qid new_status : String)
    (hunter : Option String) (partner_list : Option (List String)) : List Quest :=
  quests.map (fun q =>
    if q.id == qid then applyUpdate q new_status hunter partner_list else q)

/-- The claim path of hunter_view (src/app_v6_deploy.py lines 1464-1555):
claim buttons exist only for rows with status "Open" (lines 1465, 1518)
and are rendered disabled when is_me_busy(df, me) (lines 1506, 1549);
clicking runs update_quest_status(id, "Active", me, partners)
(lines 1507, 1550).  Teammates come from a multiselect over all users
other than me (line 1499); no busy check is applied to them.  Returns the
updated collection and whether the claim was performed. -/
def hunter_claim (quests : List Quest) (me qid : String)
    (partners : List String) : List Quest × Bool :=
  if is_me_busy quests me then (quests, false)
  else if quests.any (fun q => q.id == qid && q.status == "Open") then
    (update_quest_status_list quests qid "Active" (some me) (some partners), true)
  else (quests, false)

/-- An Active quest on which worker B is the primary hunter. -/
def questBusyB : Quest :=
  { id := "qa", title := "t1", quote_no := "", description := "",
    rank := "消防工程", points := 50, status := "Active", hunter_id := "B",
    created_at := "2025-01-01 00:00:00", partner_id := "" }

/-- An Open quest available for claiming. -/
def questOpenC2 : Quest :=
  { id := "qo", title := "t2", quote_no := "", description := "",
    rank := "消防工程", points := 70, status := "Open", hunter_id := "",
    created_at := "2025-01-01 00:00:01", partner_id := "" }

/-- C2 counterexample: worker A (idle) claims the Open quest with the busy
worker B as teammate; the claim succeeds even though B is primary on
another Active ticket, and afterwards B is involved in two Active tickets.
This refutes the claim that every member of the chosen team must satisfy
the busy-lock at claim time. -/
theorem C2_counterexample :
    (hunter_claim [questBusyB, questOpenC2] "A" "qo" ["B"]).2 = true
    ∧ is_me_busy [questBusyB, questOpenC2] "B" = true
    ∧ ((hunter_claim [questBusyB, questOpenC2] "A" "qo" ["B"]).1.filter
        (fun q => q.status == "Active"
          && (q.hunter_id == "B" || (parsePartners q.partner_id).contains "B"))).length
      = 2 := by
  decide

/-- C2 amended: only the claiming primary worker is subject to the
busy-lock at claim time: a claim that goes through implies the claimant
was not busy.  (Selected teammates are not busy-checked by the code.) -/
theorem C2_claimant_busy_lock (quests : List Quest) (me qid : String)
    (partners : List String)
    (h : (hunter_claim quests me qid partners).2 = true) :
    is_me_busy quests me = false := by
  cases hb : is_me_busy quests me with
  | false => rfl
  | true =>
    exfalso
    unfold hunter_claim at h
    rw [hb] at h
    simp at h

/-- Witness for the amended C2: an idle worker's claim of an Open quest
goes through, and the theorem yields that they were not busy. -/
theorem C2_claimant_busy_lock_witness :
    (hunter_claim [questOpenC2] "A" "qo" []).2 = true
    ∧ is_me_busy [questOpenC2] "A" = false :=
  ⟨by decide, C2_claimant_busy_lock [questOpenC2] "A" "qo" [] (by decide)⟩

/-- An Active quest with hunter A and teammate B, about to be reported
complete. -/
def questActivePair : Quest :=
  { id := "q1", title := "t", quote_no := "", description := "",
    rank := "機電工程", points := 90, status := "Active", hunter_id := "A",
    created_at := "2025-02-01 00:00:00", partner_id := "B" }

/-- C3 counterexample: after the completion report (Active -> Pending) and
before any administrator approval, neither the primary worker A nor the
teammate B is counted busy any more, refuting the claim that the
Pending -> Done approval is the transition that releases the busy-lock. -/
theorem C3_counterexample :
    (update_quest_status_list [questActivePair] "q1" "Pending" none none).all
        (fun q => q.status == "Pending") = true
    ∧ is_me_busy
        (update_quest_status_list [questActivePair] "q1" "Pending" none none) "A" = false
    ∧ is_me_busy
        (update_quest_status_list [questActivePair] "q1" "Pending" none none) "B" = false := by
  decide

/-- C3 amended: the busy-lock is computed from Active tickets only, so the
Active -> Pending completion report already releases it (the report button
is even labelled "解除鎖定", release lock): a worker is busy exactly when
some Active quest lists them as hunter or partner; Pending quests never
hold the lock. -/
theorem C3_busy_iff_active (quests : List Quest) (me : String) :
    is_me_busy quests me = true
      ↔ ∃ q, q ∈ quests ∧ q.status = "Active"
          ∧ (me = q.hunter_id ∨ me ∈ parsePartners q.partner_id) := by
  simp only [is_me_busy, List.any_eq_true, List.mem_filter, Bool.or_eq_true,
    beq_iff_eq, List.contains, List.elem_iff]
  constructor
  · rintro ⟨q, ⟨hq, hA⟩, hinv⟩
    exact ⟨q, hq, hA, hinv⟩
  · rintro ⟨q, hq, hA, hinv⟩
    exact ⟨q, ⟨hq, hA⟩, hinv⟩

/-- A quest about to be reopened: Active with a hunter and a partner. -/
def questReopen : Quest :=
  { id := "q1", title := "t", quote_no := "", description := "",
    rank := "住戶宅修", points := 40, status := "Active", hunter_id := "A",
    created_at := "2025-03-01 00:00:00", partner_id := "B" }

/-- C4 counterexample: the administrative reopen to "Open" with no worker
arguments clears partner_id but leaves hunter_id = "A" in place, refuting
the claim that both fields end up empty. -/
theorem C4_counterexample :
    (update_quest_status_list [questReopen] "q1" "Open" none none).map
        (fun q => (q.status, q.hunter_id, q.partner_id))
      = [("Open", "A", "")]
    ∧ ("A" : String) ≠ "" := by
  decide

/-- C4 amended: a status update to "Open" with no worker arguments sets
status to "Open" and clears partner_id on the addressed row, but leaves
hunter_id unchanged (the code writes the hunter_id cell only when a hunter
argument is passed). -/
theorem C4_reopen_clears_partner_only (quests : List Quest) (qid : String)
    (q : Quest) (hq : q ∈ quests) (hid : q.id = qid) :
    applyUpdate q "Open" none none
        ∈ update_quest_status_list quests qid "Open" none none
    ∧ (applyUpdate q "Open" none none).status = "Open"
    ∧ (applyUpdate q "Open" none none).partner_id = ""
    ∧ (applyUpdate q "Open" none none).hunter_id = q.hunter_id := by
  refine ⟨?_, rfl, rfl, rfl⟩
  have hmem := List.mem_map_of_mem
    (fun q' => if q'.id == qid then applyUpdate q' "Open" none none else q') hq
  simp only [hid, beq_self_eq_true, if_true] at hmem
  simpa [update_quest_status_list] using hmem

/-- Witness for the amended C4 at the concrete reopened quest. -/
theorem C4_reopen_clears_partner_only_witness :
    applyUpdate questReopen "Open" none none
        ∈ update_quest_status_list [questReopen] "q1" "Open" none none
    ∧ (applyUpdate questReopen "Open" none none).status = "Open"
    ∧ (applyUpdate questReopen "Open" none none).partner_id = ""
    ∧ (applyUpdate questReopen "Open" none none).hunter_id = questReopen.hunter_id :=
  C4_reopen_clears_partner_only [questReopen] "q1" questReopen
    (List.mem_singleton.mpr rfl) rfl

/-! ### Sheet-level row addressing of update_quest_status (claim C5) -/

/-- One cell write of a gspread batch_update entry
(src/app_v6_deploy.py lines 712-742): target row, target column, value. -/
structure CellWrite where
  row : Nat
  col : Nat
  val : String
deriving DecidableEq

/-- The worksheet as a list of rows of cell strings; row 1 is the header
row.  A missing cell reads as the empty string. -/
def cellAt (rows : List (List String)) (r c : Nat) : String :=
  (((rows.get? (r - 1)).getD []).get? (c - 1)).getD ""

/-- ws.col_values(c): the c-th cell of every row, top to bottom
(src/app_v6_deploy.py lines 521, 691). -/
def col_values (rows : List (List String)) (c : Nat) : List String :=
  rows.map (fun row => (row.get? (c - 1)).getD "")

/-- get_header_map (src/app_v6_deploy.py lines 534-536): the 1-based
column of the last header cell whose stripped text equals `name`,
skipping blank headers (a Python dict comprehension lets later duplicates
overwrite earlier ones). -/
def header_map (rows : List (List String)) (name : String) : Option Nat :=
  let headers := (rows.head?).getD []
  (List.range headers.length).foldl
    (fun acc i =>
      let h := stripSpaces ((headers.get? i).getD "")
      if h != "" && h == name then some (i + 1) else acc)
    none

/-- mapping.get(str(quest_id)) followed by `if not row_num`
(src/app_v6_deploy.py lines 680-684): the cached id -> row index, with a
0 row treated as missing exactly like Python's falsy check. -/
def lookupCache (cache : List (String × Nat)) (k : String) : Option Nat :=
  match cache.find? (fun kv => kv.1 == k) with
  | some kv => if kv.2 == 0 then none else some kv.2
  | none => none

/-- The loop of _resolve_row_by_scan (src/app_v6_deploy.py lines 690-698):
first 1-based position i >= 2 whose stripped value equals the target. -/
def scanFrom (target : String) : List String → Nat → Option Nat
  | [], _ => none
  | v :: rest, i =>
    if i != 1 && stripSpaces v == target then some i
    else scanFrom target rest (i + 1)

/-- _resolve_row_by_scan (src/app_v6_deploy.py lines 690-698): full linear
re-scan of the id column for str(quest_id).strip(). -/
def resolve_row_by_scan (rows : List (List String)) (id_col : Nat)
    (quest_id : String) : Option Nat :=
  scanFrom (stripSpaces quest_id) (col_values rows id_col) 1

/-- The hunter_id entry of the batch (src/app_v6_deploy.py lines 719-725):
present only when a hunter argument is passed; a missing header raises
KeyError, which the surrounding try turns into an aborted update. -/
def hunterWrites (rows : List (List String)) (r : Nat)
    (hunter : Option String) : Option (List CellWrite) :=
  match hunter with
  | none => some []
  | some hval =>
    match header_map rows "hunter_id" with
    | none => none
    | some c => some [⟨r, c, hval⟩]

/-- The partner_id entry of the batch (src/app_v6_deploy.py
lines 727-741): the joined list when one is passed, a clearing write when
the new status is "Open", nothing otherwise. -/
def partnerWrites (rows : List (List String)) (r : Nat) (new_status : String)
    (partner_list : Option (List String)) : Option (List CellWrite) :=
  match partner_list with
  | some ps =>
    match header_map rows "partner_id" with
    | none => none
    | some c => some [⟨r, c, joinPartners ps⟩]
  | none =>
    if new_status == "Open" then
      match header_map rows "partner_id" with
      | none => none
      | some c => some [⟨r, c, ""⟩]
    else some []

/-- The full updates list passed to the single ws.batch_update call
(src/app_v6_deploy.py lines 712-743): status write first, then the
optional hunter_id and partner_id writes, all addressed to row r; none if
a required header is missing. -/
def buildUpdates (rows : List (List String)) (r : Nat) (new_status : String)
    (hunter : Option String) (partner_list : Option (List String)) :
    Option (List CellWrite) :=
  match header_map rows "status", hunterWrites rows r hunter,
      partnerWrites rows r new_status partner_list with
  | some cs, some u2, some u3 => some ([⟨r, cs, new_status⟩] ++ u2 ++ u3)
  | _, _, _ => none

/-- Row re-validation of update_quest_status (src/app_v6_deploy.py
lines 680-710): take the cached row; re-read its id cell; keep the row on
a match, otherwise fall back to the full column re-scan. -/
def resolveTargetRow (rows : List (List String)) (cache : List (String × Nat))
    (quest_id : String) : Option Nat :=
  match lookupCache cache quest_id with
  | none => none
  | some row_num =>
    let id_col := (header_map rows "id").getD 1
    if stripSpaces (cellAt rows row_num id_col) == stripSpaces quest_id then
      some row_num
    else resolve_row_by_scan rows id_col quest_id

/-- update_quest_status at the sheet level (src/app_v6_deploy.py
lines 668-749): returns the row finally written and the trace of
batch_update calls (each element one batch of cell writes); (none, [])
models the error returns, after which nothing was written. -/
def update_quest_status_sheet (rows : List (List String))
    (cache : List (String × Nat)) (quest_id new_status : String)
    (hunter : Option String) (partner_list : Option (List String)) :
    Option Nat × List (List CellWrite) :=
  match resolveTargetRow rows cache quest_id with
  | none => (none, [])
  | some r =>
    match buildUpdates rows r new_status hunter partner_list with
    | none => (none, [])
    | some ws => (some r, [ws])

/-- Every write in a built batch is addressed to the resolved row. -/
theorem buildUpdates_rows_eq (rows : List (List String)) (r : Nat)
    (st : String) (h : Option String) (ps : Option (List String))
    (ws : List CellWrite) (hb : buildUpdates rows r st h ps = some ws) :
    ∀ w ∈ ws, w.row = r := by
  unfold buildUpdates at hb
  rcases hm : header_map rows "status" with _ | cs <;> rw [hm] at hb
  · cases hb
  rcases hw : hunterWrites rows r h with _ | u2 <;> rw [hw] at hb
  · cases hb
  rcases hp : partnerWrites rows r st ps with _ | u3 <;> rw [hp] at hb
  · cases hb
  have hu2 : ∀ w ∈ u2, w.row = r := by
    unfold hunterWrites at hw
    rcases h with _ | hval
    · cases hw; simp
    · rcases hh : header_map rows "hunter_id" with _ | c <;> rw [hh] at hw
      · cases hw
      · cases hw; simp
  have hu3 : ∀ w ∈ u3, w.row = r := by
    unfold partnerWrites at hp
    rcases ps with _ | pl
    · by_cases ho : (st == "Open") = true
      · rw [if_pos ho] at hp
        rcases hh : header_map rows "partner_id" with _ | c <;> rw [hh] at hp
        · cases hp
        · cases hp; simp
      · rw [if_neg ho] at hp
        cases hp; simp
    · rcases hh : header_map rows "partner_id" with _ | c <;> rw [hh] at hp
      · cases hp
      · cases hp; simp
  cases hb
  intro w hwmem
  rcases List.mem_append.mp hwmem with h1 | h2
  · rcases List.mem_append.mp h1 with h0 | h0
    · rcases List.mem_singleton.mp h0 with rfl; rfl
    · exact hu2 w h0
  · exact hu3 w h2

/-- C5: update_quest_status re-reads the id cell at the cached row before
writing; on a mismatch it re-scans the id column once, aborting with no
write when the scan fails and writing to the recovered row when it
succeeds; and in every run at most one batch_update is issued, the
successful one carrying all field writes of the update, each addressed to
the resolved row. -/
theorem C5_row_validation_batched (rows : List (List String))
    (cache : List (String × Nat)) (qid st : String) (h : Option String)
    (ps : Option (List String)) :
    (update_quest_status_sheet rows cache qid st h ps).2.length ≤ 1
    ∧ ((update_quest_status_sheet rows cache qid st h ps).1 = none →
        (update_quest_status_sheet rows cache qid st h ps).2 = [])
    ∧ (∀ r, lookupCache cache qid = some r →
        (stripSpaces (cellAt rows r ((header_map rows "id").getD 1))
          == stripSpaces qid) = false →
        resolve_row_by_scan rows ((header_map rows "id").getD 1) qid = none →
        update_quest_status_sheet rows cache qid st h ps = (none, []))
    ∧ (∀ r r2 ws, lookupCache cache qid = some r →
        (stripSpaces (cellAt rows r ((header_map rows "id").getD 1))
          == stripSpaces qid) = false →
        resolve_row_by_scan rows ((header_map rows "id").getD 1) qid = some r2 →
        buildUpdates rows r2 st h ps = some ws →
        update_quest_status_sheet rows cache qid st h ps = (some r2, [ws])
          ∧ ∀ w ∈ ws, w.row = r2)
    ∧ (∀ r ws, lookupCache cache qid = some r →
        (stripSpaces (cellAt rows r ((header_map rows "id").getD 1))
          == stripSpaces qid) = true →
        buildUpdates rows r st h ps = some ws →
        update_quest_status_sheet rows cache qid st h ps = (some r, [ws])) := by
  refine ⟨?_, ?_, ?_, ?_, ?_⟩
  · rcases ht : resolveTargetRow rows cache qid with _ | r
    · simp [update_quest_status_sheet, ht]
    · rcases hb : buildUpdates rows r st h ps with _ | ws <;>
        simp [update_quest_status_sheet, ht, hb]
  · intro hnone
    rcases ht : resolveTargetRow rows cache qid with _ | r
    · simp [update_quest_status_sheet, ht]
    · rcases hb : buildUpdates rows r st h ps with _ | ws
      · simp [update_quest_status_sheet, ht, hb]
      · exfalso
        simp [update_quest_status_sheet, ht, hb] at hnone
  · intro r hc hmis hscan
    have ht : resolveTargetRow rows cache qid = none := by
      rw [resolveTargetRow, hc]
      simp only [hmis, Bool.false_eq_true, if_false]
      exact hscan
    simp [update_quest_status_sheet, ht]
  · intro r r2 ws hc hmis hscan hbu
    have ht : resolveTargetRow rows cache qid = some r2 := by
      rw [resolveTargetRow, hc]
      simp only [hmis, Bool.false_eq_true, if_false]
      exact hscan
    exact ⟨by simp [update_quest_status_sheet, ht, hbu],
      buildUpdates_rows_eq rows r2 st h ps ws hbu⟩
  · intro r ws hc hmatch hbu
    have ht : resolveTargetRow rows cache qid = some r := by
      rw [resolveTargetRow, hc]
      simp only [hmatch, if_true]
    simp [update_quest_status_sheet, ht, hbu]

/-- A quests worksheet in which the cached index for q1 has gone stale:
q1 now sits in row 3 while the cache still says row 2. -/
def rowsC5 : List (List String) :=
  [["id", "status", "hunter_id", "partner_id"],
   ["qX", "Open", "", ""],
   ["q1", "Open", "", ""]]

/-- The stale id -> row cache for rowsC5. -/
def cacheC5 : List (String × Nat) := [("q1", 2)]

/-- Witness for C5: with the stale cache, the update of q1 re-scans, finds
row 3, and issues exactly one batch carrying the status, hunter and
partner writes addressed to row 3. -/
theorem C5_row_validation_batched_witness :
    update_quest_status_sheet rowsC5 cacheC5 "q1" "Active" (some "A") (some ["B"])
      = (some 3, [[⟨3, 2, "Active"⟩, ⟨3, 3, "A"⟩, ⟨3, 4, "B"⟩]]) :=
  ((C5_row_validation_batched rowsC5 cacheC5 "q1" "Active" (some "A")
      (some ["B"])).2.2.2.1 2 3 [⟨3, 2, "Active"⟩, ⟨3, 3, "A"⟩, ⟨3, 4, "B"⟩]
    (by decide) (by decide) (by decide) (by decide)).1

/-! ### Staleness signature tracker (claim C6) -/

/-- Lexicographic code-point comparison of character lists, the order
Python uses for str comparison (and hence pandas for the .max() of a
string column). -/
def charsLtB : List Char → List Char → Bool
  | [], [] => false
  | [], _ :: _ => true
  | _ :: _, [] => false
  | a :: as, b :: bs =>
    if a.toNat < b.toNat then true
    else if b.toNat < a.toNat then false
    else charsLtB as bs

/-- Python str `<` via the underlying characters. -/
def strLtB (s t : String) : Bool :=
  charsLtB s.data t.data

/-- The .max() of a string column: fold of the pick-larger function with
the empty string as seed (every string compares at least the empty
string, so on a non-empty column this is the maximum entry). -/
def maxString (l : List String) : String :=
  l.foldl (fun a b => if strLtB a b then b else a) ""

/-- _latest_quest_signature (src/app_v6_deploy.py lines 539-546):
"EMPTY" for an empty collection, otherwise max created_at and max id
joined by "|". -/
def _latest_quest_signature (quests : List Quest) : String :=
  if quests.isEmpty then "EMPTY"
  else
    maxString (quests.map (fun q => q.created_at)) ++ "|"
      ++ maxString (quests.map (fun q => q.id))

/-- _has_new_quests (src/app_v6_deploy.py lines 549-555) with the session
state made explicit: given the stored last-seen signature ("" when none
is stored), return whether a change is reported and the new stored
value. -/
def _has_new_quests (quests : List Quest) (last_seen : String) : Bool × String :=
  let latest := _latest_quest_signature quests
  if last_seen == "" then (false, latest)
  else (latest != last_seen, last_seen)

/-- The fold underlying maxString returns its seed or a list element. -/
theorem foldl_pick_mem (l : List String) (a : String) :
    l.foldl (fun x y => if strLtB x y then y else x) a = a
      ∨ l.foldl (fun x y => if strLtB x y then y else x) a ∈ l := by
  induction l generalizing a with
  | nil => exact Or.inl rfl
  | cons b t ih =>
    rcases ih (if strLtB a b then b else a) with h | h
    · rw [List.foldl_cons, h]
      by_cases hab : strLtB a b = true
      · rw [if_pos hab]; exact Or.inr (List.mem_cons_self _ _)
      · rw [if_neg hab]; exact Or.inl rfl
    · exact Or.inr (List.mem_cons_of_mem _ h)

/-- If no entry of the column contains the character `sep`, neither does
its maximum. -/
theorem maxString_no_sep (sep : Char) (l : List String)
    (h : ∀ s ∈ l, sep ∉ s.data) : sep ∉ (maxString l).data := by
  rcases foldl_pick_mem l "" with hm | hm
  · rw [maxString, hm]; simp
  · exact h _ hm

/-- Splitting at a separator absent from both left parts is injective. -/
theorem sep_inj (sep : Char) : ∀ (as bs as2 bs2 : List Char),
    sep ∉ as → sep ∉ as2 → as ++ sep :: bs = as2 ++ sep :: bs2 →
    as = as2 ∧ bs = bs2 := by
  intro as
  induction as with
  | nil =>
    intro bs as2 bs2 _ h2 heq
    cases as2 with
    | nil => simpa using heq
    | cons c t =>
      exfalso
      simp only [List.nil_append, List.cons_append, List.cons.injEq] at heq
      exact h2 (heq.1 ▸ List.mem_cons_self c t)
  | cons a t ih =>
    intro bs as2 bs2 h1 h2 heq
    cases as2 with
    | nil =>
      exfalso
      simp only [List.nil_append, List.cons_append, List.cons.injEq] at heq
      exact h1 (heq.1.symm ▸ List.mem_cons_self a t)
    | cons c t2 =>
      simp only [List.cons_append, List.cons.injEq] at heq
      obtain ⟨rfl, heq2⟩ := heq
      have h1t : sep ∉ t := fun hx => h1 (List.mem_cons_of_mem _ hx)
      have h2t : sep ∉ t2 := fun hx => h2 (List.mem_cons_of_mem _ hx)
      obtain ⟨rfl, hbs⟩ := ih bs t2 bs2 h1t h2t heq2
      exact ⟨rfl, hbs⟩

/-- The characters of `C ++ "|" ++ I`. -/
theorem sig_data (C I : String) :
    (C ++ "|" ++ I).data = C.data ++ '|' :: I.data := by
  show (C.data ++ ['|']) ++ I.data = C.data ++ '|' :: I.data
  simp

/-- Tickets whose old maximum id contains the separator character. -/
def questSigOld : Quest :=
  { id := "b|c", title := "t", quote_no := "", description := "",
    rank := "消防工程", points := 0, status := "Open", hunter_id := "",
    created_at := "a", partner_id := "" }

/-- An added ticket that raises both the maximum id and the maximum
created_at of the collection holding questSigOld. -/
def questSigNew : Quest :=
  { id := "c", title := "t", quote_no := "", description := "",
    rank := "消防工程", points := 0, status := "Open", hunter_id := "",
    created_at := "a|b", partner_id := "" }

/-- C6 counterexample: adding questSigNew changes both the maximum id
("b|c" -> "c") and the maximum created_at ("a" -> "a|b"), yet both
signatures concatenate to "a|b|c", so the tracker still reports no
change.  The claim as stated is therefore false for fields containing the
separator "|". -/
theorem C6_counterexample :
    maxString ((questSigNew :: [questSigOld]).map (fun q => q.id))
        ≠ maxString ([questSigOld].map (fun q => q.id))
    ∧ maxString ((questSigNew :: [questSigOld]).map (fun q => q.created_at))
        ≠ maxString ([questSigOld].map (fun q => q.created_at))
    ∧ (_has_new_quests [questSigOld] "").1 = false
    ∧ (_has_new_quests (questSigNew :: [questSigOld])
        ((_has_new_quests [questSigOld] "").2)).1 = false := by
  decide

/-- C6 amended: with no stored baseline the tracker adopts the current
signature and reports no change; the empty collection has the EMPTY
sentinel signature; and a subsequent call after adding a ticket that
changes the maximum id or maximum created_at reports a change, provided
no id or created_at contains the separator character "|" (always true
for the system's own uuid-hex ids and formatted timestamps; adversarial
fields containing "|" can collide, see the counterexample). -/
theorem C6_signature_tracker (qs : List Quest) (qn : Quest)
    (hpipe : ∀ q ∈ qn :: qs, ¬ '|' ∈ q.id.data ∧ ¬ '|' ∈ q.created_at.data)
    (hchange :
      maxString ((qn :: qs).map (fun q => q.id))
          ≠ maxString (qs.map (fun q => q.id))
      ∨ maxString ((qn :: qs).map (fun q => q.created_at))
          ≠ maxString (qs.map (fun q => q.created_at))) :
    (_has_new_quests qs "").1 = false
    ∧ (_has_new_quests qs "").2 = _latest_quest_signature qs
    ∧ (_has_new_quests (qn :: qs) ((_has_new_quests qs "").2)).1 = true
    ∧ _latest_quest_signature [] = "EMPTY" := by
  have hfirst : _has_new_quests qs "" = (false, _latest_quest_signature qs) := by
    simp [_has_new_quests]
  have hnewpipeC : '|' ∉ (maxString ((qn :: qs).map (fun q => q.created_at))).data :=
    maxString_no_sep _ _ (by
      intro s hs
      rcases List.mem_map.mp hs with ⟨q, hq, rfl⟩
      exact (hpipe q hq).2)
  have hnewpipeI : '|' ∉ (maxString ((qn :: qs).map (fun q => q.id))).data :=
    maxString_no_sep _ _ (by
      intro s hs
      rcases List.mem_map.mp hs with ⟨q, hq, rfl⟩
      exact (hpipe q hq).1)
  have hsignew : _latest_quest_signature (qn :: qs)
      = maxString ((qn :: qs).map (fun q => q.created_at)) ++ "|"
          ++ maxString ((qn :: qs).map (fun q => q.id)) := by
    simp [_latest_quest_signature]
  have hdiff : _latest_quest_signature (qn :: qs) ≠ _latest_quest_signature qs := by
    cases qs with
    | nil =>
      intro heq
      rw [hsignew] at heq
      have : '|' ∈ (_latest_quest_signature ([] : List Quest)).data := by
        rw [← heq, sig_data]
        simp
      rw [show _latest_quest_signature ([] : List Quest) = "EMPTY" from rfl] at this
      revert this
      decide
    | cons q0 t =>
      intro heq
      have holdpipeC : '|' ∉ (maxString ((q0 :: t).map (fun q => q.created_at))).data :=
        maxString_no_sep _ _ (by
          intro s hs
          rcases List.mem_map.mp hs with ⟨q, hq, rfl⟩
          exact (hpipe q (List.mem_cons_of_mem _ hq)).2)
      have hsigold : _latest_quest_signature (q0 :: t)
          = maxString ((q0 :: t).map (fun q => q.created_at)) ++ "|"
              ++ maxString ((q0 :: t).map (fun q => q.id)) := by
        simp [_latest_quest_signature]
      rw [hsignew, hsigold] at heq
      have hdata := congrArg String.data heq
      rw [sig_data, sig_data] at hdata
      obtain ⟨hC, hI⟩ := sep_inj '|' _ _ _ _ hnewpipeC holdpipeC hdata
      rcases hchange with hch | hch
      · exact hch (String.ext hI)
      · exact hch (String.ext hC)
  have hbasene : (_latest_quest_signature qs == "") = false := by
    apply beq_eq_false_iff_ne.mpr
    cases qs with
    | nil => decide
    | cons q0 t =>
      intro hempty
      have : '|' ∈ (_latest_quest_signature (q0 :: t)).data := by
        have hsigold : _latest_quest_signature (q0 :: t)
            = maxString ((q0 :: t).map (fun q => q.created_at)) ++ "|"
                ++ maxString ((q0 :: t).map (fun q => q.id)) := by
          simp [_latest_quest_signature]
        rw [hsigold, sig_data]
        simp
      rw [hempty] at this
      revert this
      decide
  refine ⟨by rw [hfirst], by rw [hfirst], ?_, rfl⟩
  rw [hfirst]
  show (if (_latest_quest_signature qs == "") = true then
      (false, _latest_quest_signature (qn :: qs))
    else (_latest_quest_signature (qn :: qs) != _latest_quest_signature qs,
      _latest_quest_signature qs)).1 = true
  rw [hbasene]
  simp [hdiff]

/-- Two ordinary tickets with hex-style ids and timestamp created_at. -/
def questSigW1 : Quest :=
  { id := "a1", title := "t", quote_no := "", description := "",
    rank := "消防工程", points := 0, status := "Open", hunter_id := "",
    created_at := "2025-01-01 00:00:00", partner_id := "" }

/-- A later ticket raising both maxima of the collection [questSigW1]. -/
def questSigW2 : Quest :=
  { id := "a2", title := "t", quote_no := "", description := "",
    rank := "消防工程", points := 0, status := "Open", hunter_id := "",
    created_at := "2025-01-02 00:00:00", partner_id := "" }

/-- Witness for the amended C6 on ordinary separator-free tickets. -/
theorem C6_signature_tracker_witness :
    (_has_new_quests [questSigW1] "").1 = false
    ∧ (_has_new_quests (questSigW2 :: [questSigW1])
        ((_has_new_quests [questSigW1] "").2)).1 = true := by
  have h := C6_signature_tracker [questSigW1] questSigW2 (by decide)
    (Or.inl (by decide))
  exact ⟨h.1, h.2.2.1⟩

/-! ### Category taxonomy and classifier fallback (claim C7) -/

/-- TYPE_ENG (src/app_v6_deploy.py line 306): the project-group
categories. -/
def TYPE_ENG : List String := ["消防工程", "機電工程", "住戶宅修"]

/-- TYPE_MAINT (src/app_v6_deploy.py line 307): the maintenance-group
categories. -/
def TYPE_MAINT : List String :=
  ["場勘報價", "點交總檢", "緊急搶修", "定期檢測", "設備巡檢", "耗材更換"]

/-- ALL_TYPES (src/app_v6_deploy.py line 308): the closed taxonomy. -/
def ALL_TYPES : List String := TYPE_ENG ++ TYPE_MAINT

/-- Modelled from the spec: normalize_category is called by
analyze_quote_image (src/app_v6_deploy.py line 934) and by the admin view
(line 1138) but its definition is not present under src/.  Spec section
4.5: an exact (case-sensitive) match against the fixed taxonomy is
returned unchanged; otherwise value == 0 falls back to the first
maintenance-group category and value > 0 to the first project-group
category. -/
def normalize_category (suggested : String) (value : Nat) : String :=
  if suggested ∈ ALL_TYPES then suggested
  else if value = 0 then TYPE_MAINT.headD ""
  else TYPE_ENG.headD ""

/-- C7: a taxonomy entry passes through unchanged; a non-entry falls back
to the first maintenance category when value = 0 and to the first project
category when value > 0; and the result always lies in the closed
taxonomy. -/
theorem C7_normalize_category (s : String) (v : Nat) :
    (s ∈ ALL_TYPES → normalize_category s v = s)
    ∧ (s ∉ ALL_TYPES → v = 0 → normalize_category s v = TYPE_MAINT.headD "")
    ∧ (s ∉ ALL_TYPES → 0 < v → normalize_category s v = TYPE_ENG.headD "")
    ∧ normalize_category s v ∈ ALL_TYPES := by
  refine ⟨?_, ?_, ?_, ?_⟩
  · intro hmem
    rw [normalize_category, if_pos hmem]
  · intro hnot hz
    rw [normalize_category, if_neg hnot, if_pos hz]
  · intro hnot hpos
    rw [normalize_category, if_neg hnot, if_neg (Nat.pos_iff_ne_zero.mp hpos)]
  · rw [normalize_category]
    by_cases hmem : s ∈ ALL_TYPES
    · rw [if_pos hmem]; exact hmem
    · rw [if_neg hmem]
      by_cases hz : v = 0
      · rw [if_pos hz]; decide
      · rw [if_neg hz]; decide

/-- Witness for C7 at the inputs of the spec's test vector: an invalid
suggestion falls back by value, a valid one is kept. -/
theorem C7_normalize_category_witness :
    normalize_category "Nonsense" 0 = TYPE_MAINT.headD ""
    ∧ normalize_category "Nonsense" 500 = TYPE_ENG.headD ""
    ∧ normalize_category "機電工程" 777 = "機電工程" :=
  ⟨(C7_normalize_category "Nonsense" 0).2.1 (by decide) rfl,
   (C7_normalize_category "Nonsense" 500).2.2.1 (by decide) (by decide),
   (C7_normalize_category "機電工程" 777).1 (by decide)⟩

/-! ### Read-path failure semantics (claim C9) -/

/-- The conditions the read path can encounter: a successful read of the
rows, a failed connection (connect_db returns None, src/app_v6_deploy.py
lines 464-473), a missing worksheet (sheet.worksheet raises), or a
get_all_records problem such as unusable headers (also raising inside the
try of get_data). -/
inductive StoreReadState where
  | ok (rows : List Quest)
  | connFailure
  | worksheetMissing
  | recordsError

/-- get_data (src/app_v6_deploy.py lines 476-506): `if not sheet: return
pd.DataFrame()` on a failed connection and `except Exception: return
pd.DataFrame()` around the worksheet read, so every failure collapses to
the empty collection handed to the caller (connect_db also shows a UI
error banner on connection failure, but that is outside the returned
value). -/
def get_data (st : StoreReadState) : List Quest :=
  match st with
  | .ok rows => rows
  | .connFailure => []
  | .worksheetMissing => []
  | .recordsError => []

/-- quest_id_to_row_map (src/app_v6_deploy.py lines 514-531): `if not
sheet: return {}` and `except Exception: return {}`, so every failure
collapses to the empty index. -/
def quest_id_to_row_map (st : StoreReadState) : List (String × Nat) :=
  match st with
  | .ok rows =>
    (List.range rows.length).foldl
      (fun acc i =>
        match rows.get? i with
        | some q => if stripSpaces q.id != "" then acc ++ [(stripSpaces q.id, i + 2)] else acc
        | none => acc)
      []
  | .connFailure => []
  | .worksheetMissing => []
  | .recordsError => []

/-- C9 counterexample: a connection failure, a missing worksheet and a
records error all return exactly the same values as a successfully read
empty collection, so a caller of the read path cannot distinguish "no
data" from "failed to read" - the failures are silently swallowed,
refuting the claim. -/
theorem C9_counterexample :
    get_data .connFailure = get_data (.ok [])
    ∧ get_data .worksheetMissing = get_data (.ok [])
    ∧ get_data .recordsError = get_data (.ok [])
    ∧ quest_id_to_row_map .connFailure = quest_id_to_row_map (.ok [])
    ∧ quest_id_to_row_map .worksheetMissing = quest_id_to_row_map (.ok []) := by
  refine ⟨rfl, rfl, rfl, rfl, rfl⟩

/-- C9 amended: store read failures are silently swallowed into an empty
result: for every failing read state, get_data returns the empty
collection and quest_id_to_row_map the empty index, identical to what a
successfully read empty sheet produces, so the caller cannot distinguish
the two from the returned values. -/
theorem C9_failures_swallowed (st : StoreReadState)
    (hfail : ∀ rows, st ≠ .ok rows) :
    get_data st = get_data (.ok []) ∧ quest_id_to_row_map st = quest_id_to_row_map (.ok []) := by
  cases st with
  | ok rows => exact absurd rfl (hfail rows)
  | connFailure => exact ⟨rfl, rfl⟩
  | worksheetMissing => exact ⟨rfl, rfl⟩
  | recordsError => exact ⟨rfl, rfl⟩

/-- Witness for the amended C9 at the missing-worksheet state. -/
theorem C9_failures_swallowed_witness :
    get_data .worksheetMissing = get_data (.ok [])
    ∧ quest_id_to_row_map .worksheetMissing = quest_id_to_row_map (.ok []) :=
  C9_failures_swallowed .worksheetMissing (fun rows h => by cases h)

/-! ### Credential verification (claim C10) -/

/-- Is `c` an ASCII digit? -/
def pyIsDigit (c : Char) : Bool :=
  decide (48 ≤ c.toNat) && decide (c.toNat ≤ 57)

/-- Digit-run parser for Python int(): after a first digit, further
digits may be separated by single underscores (no leading, trailing or
doubled underscore). -/
def parseDigitsGo (acc : Nat) : List Char → Option Nat
  | [] => some acc
  | c :: rest =>
    if pyIsDigit c then parseDigitsGo (acc * 10 + (c.toNat - 48)) rest
    else if c == '_' then
      match rest with
      | c2 :: rest2 =>
        if pyIsDigit c2 then parseDigitsGo (acc * 10 + (c2.toNat - 48)) rest2
        else none
      | [] => none
    else none

/-- Python int(str): strip whitespace, optional sign, then a digit run
(with optional single underscores); none models the ValueError raised on
anything else. -/
def parsePyInt (s : String) : Option Int :=
  match stripEndsWhile pyIsSpace s.data with
  | '+' :: rest =>
    match rest with
    | c :: rest2 =>
      if pyIsDigit c then (parseDigitsGo (c.toNat - 48) rest2).map (fun n => (n : Int))
      else none
    | [] => none
  | '-' :: rest =>
    match rest with
    | c :: rest2 =>
      if pyIsDigit c then (parseDigitsGo (c.toNat - 48) rest2).map (fun n => -(n : Int))
      else none
    | [] => none
  | c :: rest2 =>
    if pyIsDigit c then (parseDigitsGo (c.toNat - 48) rest2).map (fun n => (n : Int))
    else none
  | [] => none

/-- Python stored.split("$", 3): split at the first three separators
only, folding any further "$" into the fourth field. -/
def pySplit3Dollar (l : List Char) : List (List Char) :=
  let ps := charsSplitOn '$' l
  if ps.length ≤ 4 then ps
  else ps.take 3 ++ [charsJoin '$' (ps.drop 3)]

/-- verify_password (src/app_v6_deploy.py lines 762-774).  The pbkdf2
branch unpacks stored.split("$", 3) into exactly four fields, parses the
rounds with int(), and calls _hash_password_pbkdf2; any exception
(unpack ValueError, int ValueError, base64 error inside the derivation)
is caught and returns False.  Only a stored value NOT starting with
"pbkdf2$" is compared as a plaintext secret.  The key derivation itself
(HMAC-SHA256 PBKDF2 plus base64, lines 756-759) is abstracted as
`hash_fn`, returning none when it raises (e.g. invalid base64 salt) and
the base64-encoded derived key otherwise; the claim only concerns its
success or failure and the fact that base64 output never contains "$". -/
def verify_password (hash_fn : String → String → Int → Option String)
    (input_pwd stored : String) : Bool :=
  if isPref "pbkdf2$".data stored.data then
    match pySplit3Dollar stored.data with
    | [_, rounds, salt_b64, hash_b64] =>
      match parsePyInt ⟨rounds⟩ with
      | none => false
      | some r =>
        match hash_fn input_pwd ⟨salt_b64⟩ r with
        | none => false
        | some ck => ck == (⟨hash_b64⟩ : String)
    | _ => false
  else input_pwd == stored

/-- A stored credential starting with "pbkdf2$" is malformed when the
full "$"-split does not have exactly four fields, or the rounds field is
not an integer, or the key derivation fails on the salt field. -/
def malformedPbkdf2 (hash_fn : String → String → Int → Option String)
    (input_pwd stored : String) : Prop :=
  match charsSplitOn '$' stored.data with
  | [_, rounds, salt, _] =>
      parsePyInt ⟨rounds⟩ = none
      ∨ ∃ r, parsePyInt ⟨rounds⟩ = some r ∧ hash_fn input_pwd ⟨salt⟩ r = none
  | _ => True

/-- C10: for every stored credential starting with "pbkdf2$" that is
malformed (wrong number of "$"-separated fields, non-integer rounds, or
a salt on which the key derivation fails), verify_password returns false
for every input password - in particular it never falls back to comparing
the input against the stored string as plaintext (taking input = stored
would then return true).  The only fact used about the abstract key
derivation is that its base64 output never contains "$". -/
theorem C10_malformed_pbkdf2_rejected
    (hash_fn : String → String → Int → Option String)
    (hnd : ∀ p s r out, hash_fn p s r = some out → '$' ∉ out.data)
    (input_pwd stored : String)
    (hpre : isPref "pbkdf2$".data stored.data = true)
    (hmal : malformedPbkdf2 hash_fn input_pwd stored) :
    verify_password hash_fn input_pwd stored = false := by
  unfold verify_password
  rw [hpre]
  simp only [if_true]
  unfold malformedPbkdf2 at hmal
  rcases hp : charsSplitOn '$' stored.data with _ | ⟨p0, _ | ⟨p1, _ | ⟨p2, _ | ⟨p3, _ | ⟨p4, rest⟩⟩⟩⟩⟩ <;>
    rw [hp] at hmal
  · have hs3 : pySplit3Dollar stored.data = [] := by
      rw [pySplit3Dollar, hp]; rfl
    rw [hs3]
  · have hs3 : pySplit3Dollar stored.data = [p0] := by
      rw [pySplit3Dollar, hp]; rfl
    rw [hs3]
  · have hs3 : pySplit3Dollar stored.data = [p0, p1] := by
      rw [pySplit3Dollar, hp]; rfl
    rw [hs3]
  · have hs3 : pySplit3Dollar stored.data = [p0, p1, p2] := by
      rw [pySplit3Dollar, hp]; rfl
    rw [hs3]
  · have hs3 : pySplit3Dollar stored.data = [p0, p1, p2, p3] := by
      rw [pySplit3Dollar, hp]; rfl
    rw [hs3]
    rcases hmal with hnone | ⟨r, hr, hfn⟩
    · simp [hnone]
    · simp [hr, hfn]
  · have hs3 : pySplit3Dollar stored.data
        = [p0, p1, p2, charsJoin '$' (p3 :: p4 :: rest)] := by
      rw [pySplit3Dollar, hp]
      rw [if_neg (by simp)]
      rfl
    rw [hs3]
    have hdollar : '$' ∈ charsJoin '$' (p3 :: p4 :: rest) := by
      show '$' ∈ p3 ++ '$' :: charsJoin '$' (p4 :: rest)
      exact List.mem_append_right _ (List.mem_cons_self _ _)
    rcases hri : parsePyInt (⟨p1⟩ : String) with _ | r
    · simp [hri]
    · rcases hfi : hash_fn input_pwd ⟨p2⟩ r with _ | ck
      · simp [hri, hfi]
      · have hne : ck ≠ (⟨charsJoin '$' (p3 :: p4 :: rest)⟩ : String) := by
          intro heq
          exact hnd _ _ _ _ hfi (by rw [heq]; exact hdollar)
        simp [hri, hfi, hne]

/-- Witness for C10: a "pbkdf2$"-prefixed credential with non-integer
rounds is rejected even when the input password equals the stored string
verbatim (the plaintext fallback is never taken). -/
theorem C10_malformed_pbkdf2_rejected_witness :
    verify_password (fun _ _ _ => some "KEY")
      "pbkdf2$abc$salt$hash" "pbkdf2$abc$salt$hash" = false :=
  C10_malformed_pbkdf2_rejected (fun _ _ _ => some "KEY")
    (by intro p s r out h; cases h; decide)
    "pbkdf2$abc$salt$hash" "pbkdf2$abc$salt$hash" (by decide)
    (by simp only [malformedPbkdf2]; exact Or.inl (by decide))

/-! ### Quote-number normalization (claim C8) -/

/-- Python str.replace(old, "") for a fixed pattern: scan left to right,
remove each non-overlapping occurrence, and continue after it (never
re-scanning across the junction).  `fuel` only certifies termination;
l.length suffices because every step consumes at least one character. -/
def removeOccFuel (pat : List Char) : Nat → List Char → List Char
  | 0, l => l
  | _ + 1, [] => []
  | fuel + 1, c :: rest =>
    if !pat.isEmpty && isPref pat (c :: rest) then
      removeOccFuel pat fuel (List.drop pat.length (c :: rest))
    else c :: removeOccFuel pat fuel rest

/-- Python s.replace(pat-as-string, ""). -/
def removeOcc (pat l : List Char) : List Char :=
  removeOccFuel pat l.length l

/-- The replace("：", ":") step as a character map. -/
def colonFold (c : Char) : Char :=
  if c == '：' then ':' else c

/-- The label "估價單號:" stripped first (src/app_v6_deploy.py line 387). -/
def LABEL_COLON : List Char := "估價單號:".data

/-- The label "估價單號" stripped second (src/app_v6_deploy.py line 387). -/
def LABEL : List Char := "估價單號".data

/-- The characters of the final strip("-_#：: ") class
(src/app_v6_deploy.py line 388). -/
def STRIP_SET : List Char := "-_#：: ".data

/-- Membership in the final strip class. -/
def inStripSet (c : Char) : Bool :=
  STRIP_SET.contains c

/-- _normalize_quote_no (src/app_v6_deploy.py lines 383-389), with the
Python str embedded as its character list: strip whitespace, fold the
full-width colon to ":", delete all whitespace (re.sub r"\s+"), remove
the label with and then without colon, strip the punctuation class from
both ends, and strip whitespace once more. -/
def _normalize_quote_no (s : List Char) : List Char :=
  stripEndsWhile pyIsSpace
    (stripEndsWhile inStripSet
      (removeOcc LABEL
        (removeOcc LABEL_COLON
          (List.filter (fun c => !pyIsSpace c)
            (List.map colonFold (stripEndsWhile pyIsSpace s))))))

/-- The head of a dropWhile result fails the predicate. -/
theorem dropWhile_head_false (p : Char → Bool) (l : List Char) :
    ∀ (c : Char) (t : List Char), l.dropWhile p = c :: t → p c = false := by
  induction l with
  | nil => intro c t h; cases h
  | cons a l ih =>
    intro c t h
    rw [List.dropWhile_cons] at h
    by_cases hpa : p a = true
    · rw [if_pos hpa] at h
      exact ih c t h
    · rw [if_neg hpa] at h
      cases h
      cases hb : p a with
      | false => rfl
      | true => exact absurd hb hpa

/-- dropWhile is the identity when the head (if any) fails the
predicate. -/
theorem dropWhile_eq_self_of_head (p : Char → Bool) (l : List Char)
    (h : ∀ c t, l = c :: t → p c = false) : l.dropWhile p = l := by
  cases l with
  | nil => rfl
  | cons a t => simp [List.dropWhile_cons, h a t rfl]

/-- dropWhile is the identity when every element fails the predicate. -/
theorem dropWhile_eq_self_all (p : Char → Bool) (l : List Char)
    (h : ∀ c ∈ l, p c = false) : l.dropWhile p = l :=
  dropWhile_eq_self_of_head p l
    (fun c t hl => h c (hl ▸ List.mem_cons_self c t))

/-- stripEndsWhile is the identity when every element fails the
predicate. -/
theorem stripEnds_eq_self_all (p : Char → Bool) (l : List Char)
    (h : ∀ c ∈ l, p c = false) : stripEndsWhile p l = l := by
  unfold stripEndsWhile
  rw [dropWhile_eq_self_all p l h]
  rw [dropWhile_eq_self_all p l.reverse (fun c hc => h c (List.mem_reverse.mp hc))]
  exact List.reverse_reverse l

/-- Membership is preserved back through dropWhile. -/
theorem mem_dropWhile (p : Char → Bool) (c : Char) :
    ∀ l : List Char, c ∈ l.dropWhile p → c ∈ l := by
  intro l
  induction l with
  | nil => intro h; simpa using h
  | cons a t ih =>
    intro h
    rw [List.dropWhile_cons] at h
    by_cases hpa : p a = true
    · rw [if_pos hpa] at h
      exact List.mem_cons_of_mem _ (ih h)
    · rw [if_neg hpa] at h
      exact h

/-- Membership is preserved back through stripEndsWhile. -/
theorem mem_stripEnds (p : Char → Bool) (c : Char) (l : List Char)
    (h : c ∈ stripEndsWhile p l) : c ∈ l := by
  unfold stripEndsWhile at h
  have h1 := List.mem_reverse.mp h
  have h2 := mem_dropWhile _ _ _ h1
  have h3 := List.mem_reverse.mp h2
  exact mem_dropWhile _ _ _ h3

/-- dropWhile is idempotent. -/
theorem dropWhile_idem (p : Char → Bool) (l : List Char) :
    (l.dropWhile p).dropWhile p = l.dropWhile p :=
  dropWhile_eq_self_of_head p _ (fun c t h => dropWhile_head_false p l c t h)

/-- dropWhile removes a prefix: the result is a drop of the input. -/
theorem dropWhile_eq_drop (p : Char → Bool) :
    ∀ l : List Char, ∃ n, l.dropWhile p = l.drop n := by
  intro l
  induction l with
  | nil => exact ⟨0, rfl⟩
  | cons a t ih =>
    by_cases hpa : p a = true
    · obtain ⟨n, hn⟩ := ih
      exact ⟨n + 1, by rw [List.dropWhile_cons, if_pos hpa]; simpa using hn⟩
    · exact ⟨0, by rw [List.dropWhile_cons, if_neg hpa, List.drop_zero]⟩

/-- A nonempty take starts with the head of the original list. -/
theorem take_head (l : List Char) (m : Nat) (c : Char) (t : List Char)
    (h : l.take m = c :: t) : ∃ t2, l = c :: t2 := by
  cases l with
  | nil => rw [List.take_nil] at h; cases h
  | cons a l2 =>
    cases m with
    | zero => cases h
    | succ m2 =>
      rw [List.take_succ_cons] at h
      cases h
      exact ⟨l2, rfl⟩

/-- Reversing a drop of the reverse is a take. -/
theorem reverse_drop_reverse (w : List Char) (n : Nat) :
    ((w.reverse).drop n).reverse = w.take (w.length - n) := by
  by_cases hn : n ≤ w.length
  · have h := @List.reverse_take Char w (w.length - n)
    have hnn : w.length - (w.length - n) = n := by omega
    rw [hnn] at h
    rw [← h, List.reverse_reverse]
  · have h1 : (w.reverse).drop n = [] := by
      apply List.drop_eq_nil_of_le
      rw [List.length_reverse]; omega
    rw [h1]
    have h2 : w.length - n = 0 := by omega
    rw [h2, List.take_zero]
    rfl

/-- The back-strip of a list. -/
def dropEnd (p : Char → Bool) (l : List Char) : List Char :=
  (l.reverse.dropWhile p).reverse

/-- The back-strip keeps a prefix of its input. -/
theorem dropEnd_is_take (p : Char → Bool) (w : List Char) :
    ∃ m, dropEnd p w = w.take m := by
  obtain ⟨n, hn⟩ := dropWhile_eq_drop p w.reverse
  exact ⟨w.length - n, by rw [dropEnd, hn, reverse_drop_reverse]⟩

/-- The head surviving a back-strip is the head of the input. -/
theorem dropEnd_head_false (p : Char → Bool) (w : List Char) (c : Char)
    (t : List Char) (hw : ∀ c2 t2, w = c2 :: t2 → p c2 = false)
    (h : dropEnd p w = c :: t) : p c = false := by
  obtain ⟨m, hm⟩ := dropEnd_is_take p w
  rw [hm] at h
  obtain ⟨t2, ht2⟩ := take_head w m c t h
  exact hw c t2 ht2

/-- The back-strip is idempotent. -/
theorem dropEnd_idem (p : Char → Bool) (w : List Char) :
    dropEnd p (dropEnd p w) = dropEnd p w := by
  unfold dropEnd
  rw [List.reverse_reverse, dropWhile_idem]

/-- stripEndsWhile is idempotent. -/
theorem stripEnds_idem (p : Char → Bool) (l : List Char) :
    stripEndsWhile p (stripEndsWhile p l) = stripEndsWhile p l := by
  show dropEnd p ((dropEnd p (l.dropWhile p)).dropWhile p)
      = dropEnd p (l.dropWhile p)
  rw [dropWhile_eq_self_of_head p _
    (fun c t h => dropEnd_head_false p (l.dropWhile p) c t
      (fun c2 t2 h2 => dropWhile_head_false p l c2 t2 h2) h)]
  exact dropEnd_idem p _

/-- A map that fixes every element of a list fixes the list. -/
theorem map_eq_self_of (f : Char → Char) (l : List Char)
    (h : ∀ c ∈ l, f c = c) : l.map f = l := by
  induction l with
  | nil => rfl
  | cons a t ih =>
    rw [List.map_cons, h a (List.mem_cons_self a t),
      ih (fun c hc => h c (List.mem_cons_of_mem _ hc))]

/-- Membership is preserved back through removeOccFuel. -/
theorem mem_removeOccFuel (pat : List Char) (c : Char) :
    ∀ (fuel : Nat) (l : List Char), c ∈ removeOccFuel pat fuel l → c ∈ l := by
  intro fuel
  induction fuel with
  | zero => intro l h; simpa [removeOccFuel] using h
  | succ n ih =>
    intro l h
    cases l with
    | nil => simpa [removeOccFuel] using h
    | cons a rest =>
      simp only [removeOccFuel] at h
      by_cases hcond : (!pat.isEmpty && isPref pat (a :: rest)) = true
      · rw [if_pos hcond] at h
        exact List.mem_of_mem_drop (ih _ h)
      · rw [if_neg hcond] at h
        rcases List.mem_cons.mp h with rfl | hmem
        · exact List.mem_cons_self _ _
        · exact List.mem_cons_of_mem _ (ih _ hmem)

/-- Membership is preserved back through removeOcc. -/
theorem mem_removeOcc (pat : List Char) (c : Char) (l : List Char)
    (h : c ∈ removeOcc pat l) : c ∈ l :=
  mem_removeOccFuel pat c l.length l h

/-- removeOccFuel is the identity when the pattern does not occur. -/
theorem removeOccFuel_eq_self (pat : List Char) :
    ∀ (fuel : Nat) (l : List Char),
      containsSub pat l = false → removeOccFuel pat fuel l = l := by
  intro fuel
  induction fuel with
  | zero => intro l _; rfl
  | succ n ih =>
    intro l h
    cases l with
    | nil => rfl
    | cons a rest =>
      have hsplit : isPref pat (a :: rest) = false ∧ containsSub pat rest = false := by
        have h2 := h
        simp only [containsSub, Bool.or_eq_false_iff] at h2
        exact h2
      simp only [removeOccFuel]
      rw [if_neg (by simp [hsplit.1])]
      rw [ih rest hsplit.2]

/-- removeOcc is the identity when the pattern does not occur. -/
theorem removeOcc_eq_self (pat l : List Char)
    (h : containsSub pat l = false) : removeOcc pat l = l :=
  removeOccFuel_eq_self pat l.length l h

/-- isPref is transitive. -/
theorem isPref_trans : ∀ (p q x : List Char),
    isPref p q = true → isPref q x = true → isPref p x = true := by
  intro p
  induction p with
  | nil => intro q x _ _; rfl
  | cons a p2 ih =>
    intro q x hpq hqx
    cases q with
    | nil => simp [isPref] at hpq
    | cons b q2 =>
      cases x with
      | nil => simp [isPref] at hqx
      | cons cx x2 =>
        simp only [isPref, Bool.and_eq_true] at hpq hqx ⊢
        obtain ⟨hab, hpq2⟩ := hpq
        obtain ⟨hbc, hqx2⟩ := hqx
        refine ⟨?_, ih q2 x2 hpq2 hqx2⟩
        rw [beq_iff_eq] at hab hbc ⊢
        exact hab.trans hbc

/-- An occurrence of a pattern yields an occurrence of each of its
prefixes. -/
theorem containsSub_of_pref (p q : List Char) (hpq : isPref p q = true) :
    ∀ l : List Char, containsSub q l = true → containsSub p l = true := by
  intro l
  induction l with
  | nil =>
    intro h
    simp only [containsSub] at h ⊢
    cases q with
    | nil =>
      cases p with
      | nil => rfl
      | cons a p2 => simp [isPref] at hpq
    | cons b q2 => simp [isPref] at h
  | cons c rest ih =>
    intro h
    simp only [containsSub, Bool.or_eq_true] at h ⊢
    rcases h with h | h
    · exact Or.inl (isPref_trans p q _ hpq h)
    · exact Or.inr (ih h)

/-- No whitespace survives normalization (the re.sub step removes it
and the later steps only delete or trim characters). -/
theorem NQNO_no_space (s : List Char) :
    ∀ c ∈ _normalize_quote_no s, pyIsSpace c = false := by
  intro c hc
  unfold _normalize_quote_no at hc
  have h1 := mem_stripEnds _ _ _ hc
  have h2 := mem_stripEnds _ _ _ h1
  have h3 := mem_removeOcc _ _ _ h2
  have h4 := mem_removeOcc _ _ _ h3
  have h5 := List.of_mem_filter h4
  simpa using h5

/-- No full-width colon survives normalization (colonFold eliminates it
and the later steps only delete or trim characters). -/
theorem NQNO_no_fwcolon (s : List Char) :
    ∀ c ∈ _normalize_quote_no s, (c == '：') = false := by
  intro c hc
  unfold _normalize_quote_no at hc
  have h1 := mem_stripEnds _ _ _ hc
  have h2 := mem_stripEnds _ _ _ h1
  have h3 := mem_removeOcc _ _ _ h2
  have h4 := mem_removeOcc _ _ _ h3
  have h5 := List.mem_of_mem_filter h4
  rcases List.mem_map.mp h5 with ⟨a, _, ha⟩
  rw [← ha]
  unfold colonFold
  by_cases hac : (a == '：') = true
  · rw [if_pos hac]; decide
  · rw [if_neg hac]
    cases hb : (a == '：') with
    | false => rfl
    | true => exact absurd hb hac

/-- The output of normalization is already stripped of the punctuation
class: the trailing whitespace strip is the identity (no whitespace is
left), so the output ends exactly where the punctuation strip ended. -/
theorem NQNO_strip_fixed (s : List Char) :
    stripEndsWhile inStripSet (_normalize_quote_no s) = _normalize_quote_no s := by
  have hnospace : ∀ c ∈ stripEndsWhile inStripSet
      (removeOcc LABEL (removeOcc LABEL_COLON
        (List.filter (fun c => !pyIsSpace c)
          (List.map colonFold (stripEndsWhile pyIsSpace s))))),
      pyIsSpace c = false := by
    intro c hc
    have h1 := mem_stripEnds _ _ _ hc
    have h2 := mem_removeOcc _ _ _ h1
    have h3 := mem_removeOcc _ _ _ h2
    have h4 := List.of_mem_filter h3
    simpa using h4
  have hcollapse : _normalize_quote_no s
      = stripEndsWhile inStripSet
          (removeOcc LABEL (removeOcc LABEL_COLON
            (List.filter (fun c => !pyIsSpace c)
              (List.map colonFold (stripEndsWhile pyIsSpace s))))) := by
    unfold _normalize_quote_no
    exact stripEnds_eq_self_all _ _ hnospace
  rw [hcollapse, stripEnds_idem]

/-- Normalization fixes any list that is whitespace-free, full-width
colon-free, label-free and already stripped of the punctuation class. -/
theorem NQNO_fixed (y : List Char)
    (hsp : ∀ c ∈ y, pyIsSpace c = false)
    (hcol : ∀ c ∈ y, (c == '：') = false)
    (hlab : containsSub LABEL y = false)
    (hstrip : stripEndsWhile inStripSet y = y) :
    _normalize_quote_no y = y := by
  have h1 : stripEndsWhile pyIsSpace y = y := stripEnds_eq_self_all _ _ hsp
  have h2 : y.map colonFold = y :=
    map_eq_self_of _ _ (fun c hc => by
      unfold colonFold
      rw [if_neg (by rw [hcol c hc]; exact Bool.false_ne_true)])
  have h3 : y.filter (fun c => !pyIsSpace c) = y :=
    List.filter_eq_self.mpr (fun c hc => by rw [hsp c hc]; rfl)
  have hlabcolon : containsSub LABEL_COLON y = false := by
    cases hLC : containsSub LABEL_COLON y with
    | false => rfl
    | true =>
      have := containsSub_of_pref LABEL LABEL_COLON (by decide) y hLC
      rw [hlab] at this
      exact absurd this Bool.false_ne_true
  have h4 : removeOcc LABEL_COLON y = y := removeOcc_eq_self _ _ hlabcolon
  have h5 : removeOcc LABEL y = y := removeOcc_eq_self _ _ hlab
  unfold _normalize_quote_no
  rw [h1, h2, h3, h4, h5, hstrip, h1]

/-- C8 counterexample: normalizing "估估價單號價單號" removes the inner
label occurrence and splices the surrounding characters into a fresh
"估價單號", which a second normalization removes entirely, so
normalize(normalize(x)) = "" differs from normalize(x) = "估價單號":
_normalize_quote_no is not idempotent. -/
theorem C8_counterexample :
    _normalize_quote_no (_normalize_quote_no "估估價單號價單號".data)
      ≠ _normalize_quote_no "估估價單號價單號".data := by
  decide

/-- C8 amended: _normalize_quote_no is idempotent on every input whose
normalized form does not contain the label "估價單號" (in particular on
all ordinary quote numbers); the replace-based label removal can splice
a new label occurrence out of the surrounding characters, and exactly
those inputs break idempotence. -/
theorem C8_normalize_idempotent (s : List Char)
    (h : containsSub LABEL (_normalize_quote_no s) = false) :
    _normalize_quote_no (_normalize_quote_no s) = _normalize_quote_no s :=
  NQNO_fixed (_normalize_quote_no s)
    (NQNO_no_space s)
    (NQNO_no_fwcolon s)
    h
    (NQNO_strip_fixed s)

/-- Witness for the amended C8 at an ordinary labelled quote number. -/
theorem C8_normalize_idempotent_witness :
    containsSub LABEL (_normalize_quote_no " 估價單號: AB-123 ".data) = false
    ∧ _normalize_quote_no (_normalize_quote_no " 估價單號: AB-123 ".data)
        = _normalize_quote_no " 估價單號: AB-123 ".data :=
  ⟨by decide, C8_normalize_idempotent " 估價單號: AB-123 ".data (by decide)⟩
